import Mathlib

/-!
Shallow embedding of the `@hawiah/sqlite` SQLite driver
(`src/drivers/SQLiteDriver.ts`, hybrid-storage variant), covering:

* the dynamic JS value model used by records and schema type descriptors,
* JS-object operations (property get/set, spread) on records,
* the driver's pure helpers `mapHawiahTypeToSQL`, `prepareValue`,
  `splitData`, `mergeData`, `matchesQuery`,
* the stored table (schema-less `_data` blob rows, hybrid typed-column +
  `_extras` rows) and the CRUD operations `set`, `get`, `getOne`, `update`,
  `delete`, `exists`, `count`, `clear`, `drop`, `vacuum`, `analyze`,
  transactions and raw escape hatches, each guarded by `ensureConnected`.

Modelling conventions:
* machine-generated inputs (`generateId()`, `new Date().toISOString()`) are
  passed in as explicit string parameters;
* JSON text stored in the `_data`/`_extras` columns is abstracted as either
  the canonical serialization of a value (`JsonText.wf v`, on which
  `JSON.parse` is the inverse of `JSON.stringify`) or unparsable text
  (`JsonText.bad s`, on which `JSON.parse` throws);
* thrown JS exceptions become `Except DBError`; each operation returns its
  result together with the post-state, so a thrown error also reports the
  (unchanged or partially changed) state;
* SQLite's primary-key constraint on `_id` is modelled by failing an INSERT
  whose id already occurs; other engine-level behavior (file I/O, VACUUM,
  raw SQL) has no logical content for the verified claims and is a guarded
  no-op on the logical state.
-/

/-- Dynamically-typed JS record values: `null`/`undefined`, booleans,
numbers (modelled as integers; all claim inputs are integral), strings and
nested objects. JS arrays and Buffers are not modelled (no claim concerns
them). -/
inductive Value where
  | null : Value
  | bool (b : Bool) : Value
  | num (n : Int) : Value
  | str (s : String) : Value
  | obj (fields : List (String × Value)) : Value

mutual

/-- Structural equality on values, modelling JS strict equality `===` on
primitives. (JS compares objects by reference; no claim exercises
object-valued comparisons, so the structural extension is harmless.) -/
def Value.beq : Value → Value → Bool
  | .null, .null => true
  | .bool a, .bool b => a == b
  | .num a, .num b => a == b
  | .str a, .str b => a == b
  | .obj fs, .obj gs => Value.beqFields fs gs
  | _, _ => false

/-- Pointwise equality of object field lists. -/
def Value.beqFields : List (String × Value) → List (String × Value) → Bool
  | [], [] => true
  | (k, v) :: rest, (k2, v2) :: rest2 =>
      k == k2 && Value.beq v v2 && Value.beqFields rest rest2
  | _, _ => false

end

instance : BEq Value := ⟨Value.beq⟩

/-- JS truthiness of a value (`if (x)`), as used by the driver's
`if (query._id)`, `if (definition[key])` and `if (type.type)` checks. -/
def truthy : Value → Bool
  | .null => false
  | .bool b => b
  | .num n => n != 0
  | .str s => s != ""
  | .obj _ => true

/-- JS `String(x)` conversion, as used by `mapHawiahTypeToSQL`. -/
def jsStringOf : Value → String
  | .null => "null"
  | .bool b => if b then "true" else "false"
  | .num n => toString n
  | .str s => s
  | .obj _ => "[object Object]"

/-- JS `.toUpperCase()` on the (ASCII) type tags. -/
def jsUpper (s : String) : String := ⟨s.data.map Char.toUpper⟩

/-- A logical record / JS object: insertion-ordered field list with unique
keys (JS objects cannot hold duplicate keys; all operations below read the
first occurrence and update in place). -/
abbrev Rec := List (String × Value)

/-- `key in obj` — whether the object has the given property. -/
def hasKey (r : Rec) (k : String) : Bool := r.any (fun kv => kv.1 == k)

/-- `obj[key]` — property read; `none` models `undefined`. -/
def objGet (r : Rec) (k : String) : Option Value :=
  (r.find? (fun kv => kv.1 == k)).map (fun kv => kv.2)

/-- `obj[key] = v` — JS property assignment: an existing key keeps its
position and gets the new value, a fresh key is appended. -/
def objSet (r : Rec) (k : String) (v : Value) : Rec :=
  if hasKey r k then r.map (fun kv => if kv.1 == k then (k, v) else kv)
  else r ++ [(k, v)]

/-- `{...base, ...upd}` — JS object spread, later fields winning. -/
def objSpread (base upd : Rec) : Rec :=
  upd.foldl (fun acc kv => objSet acc kv.1 kv.2) base

/-- Extensional equality of records (same properties with equal values),
the sense in which JS records read back from storage are compared: key
order is irrelevant. -/
def recEquiv (r1 r2 : Rec) : Bool :=
  r1.all (fun kv => objGet r2 kv.1 == objGet r1 kv.1) &&
  r2.all (fun kv => objGet r1 kv.1 == objGet r2 kv.1)

mutual

/-- `JSON.stringify` on values, used by `prepareValue` to fold nested
objects into TEXT column cells (those cells are never re-parsed by the
driver). -/
def serializeValue : Value → String
  | .null => "null"
  | .bool b => if b then "true" else "false"
  | .num n => toString n
  | .str s => "\x22" ++ s ++ "\x22"
  | .obj fs => "\x7b" ++ serializeFields fs ++ "\x7d"

/-- Comma-separated serialization of object fields. -/
def serializeFields : List (String × Value) → String
  | [] => ""
  | [(k, v)] => "\x22" ++ k ++ "\x22:" ++ serializeValue v
  | (k, v) :: rest =>
      "\x22" ++ k ++ "\x22:" ++ serializeValue v ++ "," ++ serializeFields rest

end

/-- JSON text stored in a `_data` or `_extras` column, abstracted as a
codec: `wf v` is the canonical `JSON.stringify` output for `v` (on which
`JSON.parse` returns `v`), `bad s` is corrupt text on which `JSON.parse`
throws. -/
inductive JsonText where
  | wf (v : Value)
  | bad (s : String)

/-- `JSON.stringify` producing a stored payload. -/
def jsonStringifyText (v : Value) : JsonText := .wf v

/-- `JSON.parse` on a stored payload; `none` models the thrown
`SyntaxError`. -/
def jsonParseText : JsonText → Option Value
  | .wf v => some v
  | .bad _ => none

/-- Errors surfaced by driver operations: the `ensureConnected` guard's
`Error('Database not connected. Call connect() first.')`, the SQLite
primary-key constraint, a thrown `JSON.parse` failure, and engine-level
failures outside the logical model (e.g. operating on a table whose layout
does not match the mode). -/
inductive DBError where
  | notConnected
  | constraintViolation
  | parseError
  | engineError

/-- A row of the hybrid-mode table layout
`(_id, <schema columns>, _extras, _createdAt, _updatedAt)`. `cols` lists
every schema column in definition order; a column omitted by an INSERT
holds `Value.null` (SQLite NULL). -/
structure SqlRow where
  id : String
  cols : Rec
  extras : JsonText
  createdAt : String
  updatedAt : String

/-- A row of the schema-less table layout
`(_id, _data, _createdAt, _updatedAt)`. -/
structure BlobRow where
  id : String
  data : JsonText
  createdAt : String
  updatedAt : String

/-- The stored table, in one of the two layouts `connect()` creates. -/
inductive Table where
  | sqlRows (rows : List SqlRow)
  | blobRows (rows : List BlobRow)

/-- `SELECT COUNT(*)` over either layout. -/
def rowCount : Table → Nat
  | .sqlRows rows => rows.length
  | .blobRows rows => rows.length

/-- Driver instance state: the connection handle (`db !== null`), the
attached schema and the stored table. The duck-typed schema object is
modelled by its definition mapping (the `getDefinition()` unwrapping is
transparent to every claim); `schema = none` is the schema-less (`nosql`)
mode, `schema = some definition` the hybrid (`sql`) mode, matching the
driver's coupled `this.schema && this.dbType === 'sql'` test, since
`setSchema` sets both together. -/
structure DriverState where
  connected : Bool
  schema : Option Rec
  table : Table

/-- The reserved-field test `['_id', '_createdAt', '_updatedAt'].includes(key)`. -/
def reservedKey (k : String) : Bool :=
  k == "_id" || k == "_createdAt" || k == "_updatedAt"

namespace SQLiteDriver

/-- Unwrapping of a structured type descriptor:
`if (typeof type === 'object' && type !== null && type.type) t = type.type`. -/
def unwrapTypeTag (type : Value) : Value :=
  match type with
  | .obj fs =>
      match objGet fs "type" with
      | some tv => if truthy tv then tv else .obj fs
      | none => .obj fs
  | t => t

/-- Substring test `needle.isPrefixOf hay` on character lists. -/
def charsPrefix : List Char → List Char → Bool
  | [], _ => true
  | _ :: _, [] => false
  | c :: ns, h :: hs => c == h && charsPrefix ns hs

/-- Substring containment on character lists (hay, needle). -/
def charsContains (hay needle : List Char) : Bool :=
  match hay with
  | [] => needle.isEmpty
  | _ :: rest => charsPrefix needle hay || charsContains rest needle

/-- JS `String.prototype.includes`. -/
def strContains (hay needle : String) : Bool := charsContains hay.data needle.data

/-- `mapHawiahTypeToSQL`: maps a Hawiah type descriptor to a SQLite column
type by the ordered substring rules over the upper-cased tag. -/
def mapHawiahTypeToSQL (type : Value) : String :=
  let t := unwrapTypeTag type
  let s := jsUpper (jsStringOf t)
  if strContains s "STRING" || strContains s "TEXT" || strContains s "EMAIL" ||
     strContains s "URL" || strContains s "UUID" || strContains s "CHAR" then "TEXT"
  else if strContains s "NUMBER" then
    if strContains s "INT" then "INTEGER" else "REAL"
  else if strContains s "BOOLEAN" then "INTEGER"
  else if strContains s "DATE" then "TEXT"
  else if strContains s "BLOB" || strContains s "BUFFER" then "BLOB"
  else "TEXT"

/-- `prepareValue`: null/undefined stay NULL, booleans become 0/1, nested
objects are folded to their JSON text; numbers and strings pass through.
(`Buffer.isBuffer` values are not modelled.) -/
def prepareValue : Value → Value
  | .null => .null
  | .bool b => .num (if b then 1 else 0)
  | .obj fs => .str (serializeValue (.obj fs))
  | v => v

/-- `splitData`: without a schema everything (reserved fields included) is
extra data; with a schema, each field goes to the schema part iff its key
is in the definition, otherwise to the extras part unless reserved. -/
def splitData (schema : Option Rec) (data : Rec) : Rec × Rec :=
  match schema with
  | none => ([], data)
  | some definition =>
      data.foldl
        (fun acc kv =>
          if hasKey definition kv.1 then (objSet acc.1 kv.1 kv.2, acc.2)
          else if reservedKey kv.1 then acc
          else (acc.1, objSet acc.2 kv.1 kv.2))
        ([], [])

/-- The logical record carried by a blob or extras payload when it is read
fail-soft: the parsed object's fields, or `{}` for an unparsable payload
(the `try { JSON.parse } catch` recovery) or a non-object payload (whose
spread contributes no fields). -/
def payloadRec (d : JsonText) : Rec :=
  match jsonParseText d with
  | some (.obj fs) => fs
  | _ => []

/-- Whether a payload parses (i.e. `JSON.parse` does not throw on it). -/
def payloadParses (d : JsonText) : Bool :=
  match jsonParseText d with
  | some _ => true
  | none => false

/-- `mergeData`: rebuilds a logical record from a hybrid row. `rest` is the
row object minus the destructured `_extras` column, in `SELECT *` column
order; the extras payload is parsed fail-soft (`payloadRec`); declared
fields whose (unwrapped) type is the exact string `'boolean'` have numeric
cells cast back via `=== 1`; finally `{...rest, ...extras}`. -/
def mergeData (schema : Option Rec) (row : SqlRow) : Rec :=
  let rest : Rec :=
    ("_id", Value.str row.id) :: row.cols ++
      [("_createdAt", Value.str row.createdAt), ("_updatedAt", Value.str row.updatedAt)]
  let extras : Rec := payloadRec row.extras
  let rest2 : Rec :=
    match schema with
    | none => rest
    | some definition =>
        rest.map (fun kv =>
          match objGet definition kv.1 with
          | some td =>
              if truthy td then
                if unwrapTypeTag td == Value.str "boolean" then
                  match kv.2 with
                  | .num n => (kv.1, Value.bool (n == 1))
                  | v => (kv.1, v)
                else kv
              else kv
          | none => kv)
  objSpread rest2 extras

/-- `matchesQuery`: the record matches iff every filter entry strictly
equals (`===`) the record's field; a missing field (`undefined`) never
matches a filter value. -/
def matchesQuery (record query : Rec) : Bool :=
  query.all (fun kv =>
    match objGet record kv.1 with
    | some rv => rv == kv.2
    | none => false)

/-- `JSON.parse(row._data)` into a record. Driver-written payloads are
always objects; a non-object JSON payload spreads to `{}`. Corrupt text
throws. -/
def parsePayload (d : JsonText) : Except DBError Rec :=
  match jsonParseText d with
  | some (.obj fs) => .ok fs
  | some _ => .ok []
  | none => .error .parseError

/-- `rows.map(row => JSON.parse(row._data))` — the first corrupt payload
throws out of the whole read. -/
def parseRows : List BlobRow → Except DBError (List Rec)
  | [] => .ok []
  | r :: rest =>
      match parsePayload r.data with
      | .ok rec =>
          match parseRows rest with
          | .ok l => .ok (rec :: l)
          | .error e => .error e
      | .error e => .error e

/-- `connect()`: opens the handle. Table creation is `IF NOT EXISTS`;
fresh stores are built by `initialState` below, so only the handle flips. -/
def connect (s : DriverState) : DriverState := { s with connected := true }

/-- `disconnect()`: releases the handle. -/
def disconnect (s : DriverState) : DriverState := { s with connected := false }

/-- `setSchema(schema)`: attaches the definition and switches to sql mode. -/
def setSchema (s : DriverState) (definition : Rec) : DriverState :=
  { s with schema := some definition }

/-- A freshly constructed, not yet connected store whose (empty) table has
the layout `connect()` creates for the given schema state. -/
def initialState (schema : Option Rec) : DriverState :=
  { connected := false
    schema := schema
    table := match schema with
             | some _ => .sqlRows []
             | none => .blobRows [] }

/-- `set(data)`: stamps `_id`/`_createdAt`/`_updatedAt` over the input and
persists either as typed columns plus an `_extras` JSON payload (hybrid
mode) or as one `_data` JSON blob (schema-less mode), returning the full
logical record. `id` and `now` stand for `generateId()` and
`new Date().toISOString()`. -/
def set (s : DriverState) (id now : String) (data : Rec) :
    Except DBError Rec × DriverState :=
  if s.connected = false then (.error .notConnected, s) else
  let record := objSpread data
    [("_id", Value.str id), ("_createdAt", Value.str now), ("_updatedAt", Value.str now)]
  match s.schema with
  | some definition =>
      match s.table with
      | .sqlRows rows =>
          let sd := (splitData (some definition) record).1
          let ed := (splitData (some definition) record).2
          if rows.any (fun r => r.id == id) then (.error .constraintViolation, s)
          else
            let newRow : SqlRow :=
              { id := id
                cols := definition.map (fun col =>
                  match objGet sd col.1 with
                  | some v => (col.1, prepareValue v)
                  | none => (col.1, Value.null))
                extras := jsonStringifyText (.obj ed)
                createdAt := now
                updatedAt := now }
            (.ok record, { s with table := .sqlRows (rows ++ [newRow]) })
      | _ => (.error .engineError, s)
  | none =>
      match s.table with
      | .blobRows rows =>
          if rows.any (fun r => r.id == id) then (.error .constraintViolation, s)
          else
            let newRow : BlobRow :=
              { id := id
                data := jsonStringifyText (.obj record)
                createdAt := now
                updatedAt := now }
            (.ok record, { s with table := .blobRows (rows ++ [newRow]) })
      | _ => (.error .engineError, s)

/-- `get(query)`: materializes the whole table (merged hybrid rows, or
parsed `_data` blobs) and filters in memory with `matchesQuery`; an empty
filter returns everything. -/
def get (s : DriverState) (query : Rec) :
    Except DBError (List Rec) × DriverState :=
  if s.connected = false then (.error .notConnected, s) else
  match s.schema with
  | some definition =>
      match s.table with
      | .sqlRows rows =>
          let records := rows.map (mergeData (some definition))
          if query.length > 0 then
            (.ok (records.filter (fun r => matchesQuery r query)), s)
          else (.ok records, s)
      | _ => (.error .engineError, s)
  | none =>
      match s.table with
      | .blobRows rows =>
          match parseRows rows with
          | .ok allRecords =>
              if query.length = 0 then (.ok allRecords, s)
              else (.ok (allRecords.filter (fun r => matchesQuery r query)), s)
          | .error e => (.error e, s)
      | _ => (.error .engineError, s)

/-- `WHERE _id = ?` with the bound filter value against the TEXT primary
key; a non-string binding never equals a TEXT cell. -/
def idMatches (v : Value) (id : String) : Bool := v == Value.str id

/-- Hybrid-mode primary-key lookup: `SELECT * ... WHERE _id = ?`, merged. -/
def pkLookupSql (definition : Rec) (rows : List SqlRow) (v : Value) : Option Rec :=
  (rows.find? (fun r => idMatches v r.id)).map (mergeData (some definition))

/-- Schema-less primary-key lookup: `SELECT _data ... WHERE _id = ?`,
parsed (a corrupt payload throws). -/
def pkLookupBlob (rows : List BlobRow) (v : Value) : Except DBError (Option Rec) :=
  match rows.find? (fun r => idMatches v r.id) with
  | some r =>
      match parsePayload r.data with
      | .ok rec => .ok (some rec)
      | .error e => .error e
  | none => .ok none

/-- The `if (query._id)` guard: the filter's `_id` entry, when present and
truthy. -/
def truthyIdOf (query : Rec) : Option Value :=
  match objGet query "_id" with
  | some v => if truthy v then some v else none
  | none => none

/-- `results.length > 0 ? results[0] : null` over a `get` result. -/
def firstOf (res : Except DBError (List Rec)) : Except DBError (Option Rec) :=
  match res with
  | .ok [] => .ok none
  | .ok (r :: _) => .ok (some r)
  | .error e => .error e

/-- The primary-key code path of `getOne`: `WHERE _id = ?` in the layout of
the current mode, without touching any other filter entry. -/
def pkBranch (s : DriverState) (v : Value) :
    Except DBError (Option Rec) × DriverState :=
  match s.schema with
  | some definition =>
      match s.table with
      | .sqlRows rows => (.ok (pkLookupSql definition rows v), s)
      | _ => (.error .engineError, s)
  | none =>
      match s.table with
      | .blobRows rows => (pkLookupBlob rows v, s)
      | _ => (.error .engineError, s)

/-- `getOne(query)`: a truthy `query._id` is served by the direct
primary-key lookup; every other filter falls back to `get(query)` and
takes the first result. -/
def getOne (s : DriverState) (query : Rec) :
    Except DBError (Option Rec) × DriverState :=
  if s.connected = false then (.error .notConnected, s) else
  match truthyIdOf query with
  | some v => pkBranch s v
  | none =>
      let r := get s query
      (firstOf r.1, r.2)

/-- One hybrid-mode row write of `update`: `UPDATE ... SET <present schema
columns>, _extras = ?, _updatedAt = ? WHERE _id = ?`. Columns absent from
the split keep their cell; the `_updatedAt` parameter is
`updatedRecord._updatedAt`, which by construction is the fresh stamp. -/
def applySqlUpdate (rows : List SqlRow) (rid : Value) (sd ed : Rec) (now : String) :
    List SqlRow :=
  rows.map (fun r =>
    if idMatches rid r.id then
      { r with
        cols := r.cols.map (fun kv =>
          match objGet sd kv.1 with
          | some v => (kv.1, prepareValue v)
          | none => kv)
        extras := jsonStringifyText (.obj ed)
        updatedAt := now }
    else r)

/-- One schema-less row write of `update`:
`UPDATE ... SET _data = ?, _updatedAt = ? WHERE _id = ?`. -/
def applyBlobUpdate (rows : List BlobRow) (rid : Value) (updatedRecord : Rec)
    (now : String) : List BlobRow :=
  rows.map (fun r =>
    if idMatches rid r.id then
      { r with data := jsonStringifyText (.obj updatedRecord), updatedAt := now }
    else r)

/-- `update(query, data)` (hybrid-variant source): loads the matches, then
for each builds `{...record, ...data, _updatedAt: now}` — note this
variant does NOT restore `record._id` / `record._createdAt` afterwards —
splits and rewrites the row keyed by the original record's `_id`, and
counts every processed record. -/
def update (s : DriverState) (now : String) (query data : Rec) :
    Except DBError Nat × DriverState :=
  if s.connected = false then (.error .notConnected, s) else
  match (get s query).1 with
  | .error e => (.error e, s)
  | .ok records =>
      match s.schema, s.table with
      | some definition, .sqlRows rows =>
          let final := records.foldl
            (fun (acc : Nat × List SqlRow) record =>
              let updatedRecord :=
                objSpread (objSpread record data) [("_updatedAt", Value.str now)]
              let sd := (splitData (some definition) updatedRecord).1
              let ed := (splitData (some definition) updatedRecord).2
              let rid := (objGet record "_id").getD Value.null
              (acc.1 + 1, applySqlUpdate acc.2 rid sd ed now))
            (0, rows)
          (.ok final.1, { s with table := .sqlRows final.2 })
      | none, .blobRows rows =>
          let final := records.foldl
            (fun (acc : Nat × List BlobRow) record =>
              let updatedRecord :=
                objSpread (objSpread record data) [("_updatedAt", Value.str now)]
              let rid := (objGet record "_id").getD Value.null
              (acc.1 + 1, applyBlobUpdate acc.2 rid updatedRecord now))
            (0, rows)
          (.ok final.1, { s with table := .blobRows final.2 })
      | _, _ => (.error .engineError, s)

/-- `delete(query)`: loads the matches and deletes each row by the
record's `_id`, counting every processed record. -/
def delete (s : DriverState) (query : Rec) : Except DBError Nat × DriverState :=
  if s.connected = false then (.error .notConnected, s) else
  match (get s query).1 with
  | .error e => (.error e, s)
  | .ok records =>
      match s.table with
      | .sqlRows rows =>
          let final := records.foldl
            (fun (acc : Nat × List SqlRow) record =>
              let rid := (objGet record "_id").getD Value.null
              (acc.1 + 1, acc.2.filter (fun r => !idMatches rid r.id)))
            (0, rows)
          (.ok final.1, { s with table := .sqlRows final.2 })
      | .blobRows rows =>
          let final := records.foldl
            (fun (acc : Nat × List BlobRow) record =>
              let rid := (objGet record "_id").getD Value.null
              (acc.1 + 1, acc.2.filter (fun r => !idMatches rid r.id)))
            (0, rows)
          (.ok final.1, { s with table := .blobRows final.2 })

/-- `exists(query)` (named `existsOp` here; `exists` is reserved in Lean):
delegates to `getOne` and tests the result against null. -/
def existsOp (s : DriverState) (query : Rec) : Except DBError Bool × DriverState :=
  if s.connected = false then (.error .notConnected, s) else
  let r := getOne s query
  (r.1.map (fun o => o.isSome), r.2)

/-- `count(query)`: a direct `SELECT COUNT(*)` for the empty filter,
otherwise the length of `get(query)`. -/
def count (s : DriverState) (query : Rec) : Except DBError Nat × DriverState :=
  if s.connected = false then (.error .notConnected, s) else
  if query.length = 0 then (.ok (rowCount s.table), s)
  else
    let r := get s query
    (r.1.map List.length, r.2)

/-- `DELETE FROM <table>` preserving the layout. -/
def emptiedTable : Table → Table
  | .sqlRows _ => .sqlRows []
  | .blobRows _ => .blobRows []

/-- `clear()`: deletes all rows. -/
def clear (s : DriverState) : Except DBError Unit × DriverState :=
  if s.connected = false then (.error .notConnected, s) else
  (.ok (), { s with table := emptiedTable s.table })

/-- `drop()`: removes the table; at the logical level the stored rows are
gone (the dangling-table follow-up behavior is outside the claims). -/
def drop (s : DriverState) : Except DBError Unit × DriverState :=
  if s.connected = false then (.error .notConnected, s) else
  (.ok (), { s with table := emptiedTable s.table })

/-- `vacuum()`: engine maintenance; no logical effect on stored records. -/
def vacuum (s : DriverState) : Except DBError Unit × DriverState :=
  if s.connected = false then (.error .notConnected, s) else (.ok (), s)

/-- `analyze()`: engine maintenance; no logical effect on stored records. -/
def analyze (s : DriverState) : Except DBError Unit × DriverState :=
  if s.connected = false then (.error .notConnected, s) else (.ok (), s)

/-- `beginTransaction()`: engine transaction boundary; no logical effect on
stored records is modelled. -/
def beginTransaction (s : DriverState) : Except DBError Unit × DriverState :=
  if s.connected = false then (.error .notConnected, s) else (.ok (), s)

/-- `commit()`. -/
def commit (s : DriverState) : Except DBError Unit × DriverState :=
  if s.connected = false then (.error .notConnected, s) else (.ok (), s)

/-- `rollback()`. -/
def rollback (s : DriverState) : Except DBError Unit × DriverState :=
  if s.connected = false then (.error .notConnected, s) else (.ok (), s)

/-- `executeRaw(sql)`: guarded pass-through to the engine; the effect of
the raw statement itself is explicitly outside the driver's contract, so
only the connection guard is modelled. -/
def executeRaw (s : DriverState) (sql : String) : Except DBError Unit × DriverState :=
  if s.connected = false then (.error .notConnected, s) else (.ok (), s)

/-- `prepare(sql)`: guarded statement preparation; as for `executeRaw`,
only the connection guard carries logical content. -/
def prepareRaw (s : DriverState) (sql : String) : Except DBError Unit × DriverState :=
  if s.connected = false then (.error .notConnected, s) else (.ok (), s)

/-- Well-formedness of a schema-less table as the driver itself writes it:
every `_data` payload parses and carries an `_id` field matching the row's
primary key. -/
def blobRowsWF (rows : List BlobRow) : Bool :=
  rows.all (fun r =>
    payloadParses r.data &&
    (match objGet (payloadRec r.data) "_id" with
     | some (Value.str s) => s == r.id
     | _ => false))

/-- Well-formedness of a hybrid table as the driver itself writes it: the
schema does not declare the reserved `_id` column, and no `_extras` payload
smuggles in an `_id` field. -/
def sqlRowsWF (definition : Rec) (rows : List SqlRow) : Bool :=
  !hasKey definition "_id" &&
  rows.all (fun r => !hasKey (payloadRec r.extras) "_id")

end SQLiteDriver

/-! ### Spec-side definitions and concrete claim instances -/

/-- Modelled from the spec: the §4.1 ordered resolution rules of the Type
Mapper, as a function of the normalized tag (structured descriptors already
unwrapped to their `type` field and upper-cased). Used to compare the
implementation against the spec's rule list. -/
def specSQLTypeOfTag (t : String) : String :=
  if SQLiteDriver.strContains t "STRING" || SQLiteDriver.strContains t "TEXT" ||
     SQLiteDriver.strContains t "EMAIL" || SQLiteDriver.strContains t "URL" ||
     SQLiteDriver.strContains t "UUID" || SQLiteDriver.strContains t "CHAR" then "TEXT"
  else if SQLiteDriver.strContains t "NUMBER" then
    if SQLiteDriver.strContains t "INT" then "INTEGER" else "REAL"
  else if SQLiteDriver.strContains t "BOOLEAN" then "INTEGER"
  else if SQLiteDriver.strContains t "DATE" then "TEXT"
  else if SQLiteDriver.strContains t "BLOB" || SQLiteDriver.strContains t "BUFFER" then "BLOB"
  else "TEXT"

/-- Extracts a field of the record returned by a `getOne`-style result. -/
def firstField (res : Except DBError (Option Rec)) (k : String) : Option Value :=
  match res with
  | .ok (some r) => objGet r k
  | _ => none

/-- Compares the record returned by a `getOne`-style result against an
expected record, extensionally. -/
def resultEquiv (res : Except DBError (Option Rec)) (r2 : Rec) : Option Bool :=
  match res with
  | .ok (some r) => some (recEquiv r r2)
  | _ => none

/-- Whether a schema key is defined for a field name (no schema defines
nothing). -/
def schemaDefines (schema : Option Rec) (k : String) : Bool :=
  match schema with
  | some definition => hasKey definition k
  | none => false

/-- Claim C6 as stated, at one schema state and record: `splitData`
partitions with (1) schema-part membership iff the field is a schema key,
(2) extras membership iff the field is neither reserved nor schema-owned,
(3) reserved fields in neither output, and (4) with no schema every field
an extra. -/
def claimC6Partition (schema : Option Rec) (data : Rec) : Prop :=
  (∀ k, hasKey (SQLiteDriver.splitData schema data).1 k =
      (hasKey data k && schemaDefines schema k)) ∧
  (∀ k, hasKey (SQLiteDriver.splitData schema data).2 k =
      (hasKey data k && !reservedKey k && !schemaDefines schema k)) ∧
  (∀ k, reservedKey k = true →
      hasKey (SQLiteDriver.splitData schema data).1 k = false ∧
      hasKey (SQLiteDriver.splitData schema data).2 k = false) ∧
  (schema = none → ∀ k, hasKey data k = true →
      hasKey (SQLiteDriver.splitData schema data).2 k = true)

/-- Claim C3's core at one store and filter: `getOne` returns the first
match of `get` on the same filter (or null when there is no match). -/
def claimC3FirstMatch (s : DriverState) (q : Rec) : Prop :=
  (SQLiteDriver.getOne s q).1 = SQLiteDriver.firstOf (SQLiteDriver.get s q).1

/-- Claim C4's schema-less half at one store: reading the whole table does
not propagate a payload decode error (the corrupt payload would be replaced
by an empty record instead). -/
def claimC4FailSoft (s : DriverState) : Prop :=
  ∃ l, (SQLiteDriver.get s []).1 = .ok l

/-- C1 instance: the spec's hybrid schema `a: NUMBER, b: BOOLEAN` (the
repository's canonical upper-case tags, as in its README and type enum). -/
def c1schema : Rec := [("a", Value.str "NUMBER"), ("b", Value.str "BOOLEAN")]

/-- C1 instance: the spec's input record `a: 1, b: true, c: "x"`. -/
def c1input : Rec := [("a", Value.num 1), ("b", Value.bool true), ("c", Value.str "x")]

/-- C1 instance: a connected hybrid store with that schema and an empty
table. -/
def c1connected : DriverState :=
  { connected := true, schema := some c1schema, table := .sqlRows [] }

/-- C1 instance: the store after inserting the input record (id `id1`,
timestamp `T0`). -/
def c1afterInsert : DriverState :=
  (SQLiteDriver.set c1connected "id1" "T0" c1input).2

/-- C1 instance: the record the claim says the read-back equals — the input
plus the reserved fields, with `b` restored to the boolean `true`. -/
def c1claimedRecord : Rec :=
  [("a", Value.num 1), ("b", Value.bool true), ("c", Value.str "x"),
   ("_id", Value.str "id1"), ("_createdAt", Value.str "T0"),
   ("_updatedAt", Value.str "T0")]

/-- C2 instance: a connected schema-less store with an empty table. -/
def c2start : DriverState :=
  { connected := true, schema := none, table := .blobRows [] }

/-- C2 instance: the store after inserting `name: "a"` (id `id1`, created
at `T0`). -/
def c2afterInsert : DriverState :=
  (SQLiteDriver.set c2start "id1" "T0" [("name", Value.str "a")]).2

/-- C2 instance: a patch that tries to overwrite the reserved `_createdAt`
and `_id` fields. -/
def c2patch : Rec :=
  [("_createdAt", Value.str "2099-01-01T00:00:00.000Z"), ("_id", Value.str "other")]

/-- C2 instance: the store after `update({}, patch)` at time `T1`. -/
def c2afterUpdate : DriverState :=
  (SQLiteDriver.update c2afterInsert "T1" [] c2patch).2

/-- C3 counterexample instance: a schema-less store holding one record
`_id: "X", role: "user"`. -/
def c3store : DriverState :=
  (SQLiteDriver.set
    { connected := true, schema := none, table := .blobRows [] }
    "X" "T0" [("role", Value.str "user")]).2

/-- C3 counterexample instance: a filter with a truthy `_id` plus a second
entry the stored record does not satisfy. -/
def c3query : Rec := [("_id", Value.str "X"), ("role", Value.str "admin")]

/-- C4 counterexample instance: a stored row whose `_data` payload does not
parse. -/
def c4corruptRow : BlobRow :=
  { id := "r1", data := .bad "not-json", createdAt := "T0", updatedAt := "T0" }

/-- C4 counterexample instance: a connected schema-less store holding only
the corrupt row. -/
def c4store : DriverState :=
  { connected := true, schema := none, table := .blobRows [c4corruptRow] }

/-- C6 counterexample instance: a record consisting of the reserved `_id`
field. -/
def c6data : Rec := [("_id", Value.str "x")]

/-- A small populated schema-less store shared by several witnesses: one
record `role: "user"` under id `w1`. -/
def demoStore : DriverState :=
  (SQLiteDriver.set
    { connected := true, schema := none, table := .blobRows [] }
    "w1" "T0" [("role", Value.str "user")]).2

/-- A disconnected store used by guard witnesses. -/
def discStore : DriverState :=
  { connected := false, schema := none, table := .blobRows [] }

/-! ### Shared lemmas about the JS-object operations -/

lemma hasKey_cons (kv : String × Value) (r : Rec) (k : String) :
    hasKey (kv :: r) k = (kv.1 == k || hasKey r k) := by
  simp [hasKey, List.any_cons]

lemma objGet_cons (kv : String × Value) (r : Rec) (k : String) :
    objGet (kv :: r) k = if kv.1 = k then some kv.2 else objGet r k := by
  by_cases h : kv.1 = k
  · simp [objGet, List.find?_cons_of_pos, h]
  · simp [objGet, List.find?_cons_of_neg, beq_false_of_ne h, h]

lemma objGet_eq_none_of_hasKey_false (r : Rec) (k : String) (h : hasKey r k = false) :
    objGet r k = none := by
  induction r with
  | nil => rfl
  | cons kv rest ih =>
      rw [hasKey_cons] at h
      rcases Bool.or_eq_false_iff.mp h with ⟨h1, h2⟩
      rw [objGet_cons, if_neg (fun hc => by simp [hc] at h1)]
      exact ih h2

lemma hasKey_map_set (r : Rec) (k : String) (v : Value) (k2 : String) :
    hasKey (r.map (fun kv => if kv.1 == k then (k, v) else kv)) k2 = hasKey r k2 := by
  induction r with
  | nil => rfl
  | cons kv rest ih =>
      rw [List.map_cons, hasKey_cons, hasKey_cons, ih]
      by_cases hkv : kv.1 = k
      · rw [if_pos (beq_iff_eq.mpr hkv), hkv]
      · rw [if_neg (fun hc => hkv (beq_iff_eq.mp hc))]

lemma objGet_map_set_ne (r : Rec) (k k2 : String) (v : Value) (h : k2 ≠ k) :
    objGet (r.map (fun kv => if kv.1 == k then (k, v) else kv)) k2 = objGet r k2 := by
  induction r with
  | nil => rfl
  | cons kv rest ih =>
      rw [List.map_cons, objGet_cons, objGet_cons]
      by_cases hkv : kv.1 = k
      · rw [if_pos (beq_iff_eq.mpr hkv)]
        rw [if_neg (fun hc : (k, v).1 = k2 => h hc.symm),
            if_neg (fun hc : kv.1 = k2 => h (hkv.symm.trans hc).symm)]
        exact ih
      · rw [if_neg (fun hc => hkv (beq_iff_eq.mp hc))]
        by_cases hq : kv.1 = k2
        · rw [if_pos hq, if_pos hq]
        · rw [if_neg hq, if_neg hq]
          exact ih

lemma objGet_map_set_self (r : Rec) (k : String) (v : Value) (h : hasKey r k = true) :
    objGet (r.map (fun kv => if kv.1 == k then (k, v) else kv)) k = some v := by
  induction r with
  | nil => simp [hasKey] at h
  | cons kv rest ih =>
      rw [List.map_cons, objGet_cons]
      by_cases hkv : kv.1 = k
      · rw [if_pos (beq_iff_eq.mpr hkv), if_pos rfl]
      · rw [hasKey_cons] at h
        rw [if_neg (fun hc => hkv (beq_iff_eq.mp hc)), if_neg hkv]
        refine ih ?_
        cases hx : hasKey rest k
        · simp [hx, beq_false_of_ne hkv] at h
        · rfl

lemma objGet_append_single_ne (r : Rec) (k k2 : String) (v : Value) (h : k2 ≠ k) :
    objGet (r ++ [(k, v)]) k2 = objGet r k2 := by
  induction r with
  | nil =>
      rw [List.nil_append, objGet_cons, if_neg (fun hc : (k, v).1 = k2 => h hc.symm)]
  | cons kv rest ih =>
      rw [List.cons_append, objGet_cons, objGet_cons]
      by_cases hq : kv.1 = k2
      · rw [if_pos hq, if_pos hq]
      · rw [if_neg hq, if_neg hq]
        exact ih

lemma objGet_append_single_self (r : Rec) (k : String) (v : Value) :
    hasKey r k = false → objGet (r ++ [(k, v)]) k = some v := by
  induction r with
  | nil =>
      intro _
      rw [List.nil_append, objGet_cons, if_pos rfl]
  | cons kv rest ih =>
      intro h
      rw [hasKey_cons] at h
      rcases Bool.or_eq_false_iff.mp h with ⟨h1, h2⟩
      rw [List.cons_append, objGet_cons, if_neg (fun hc => by simp [hc] at h1)]
      exact ih h2

lemma hasKey_append_single (r : Rec) (k : String) (v : Value) (k2 : String) :
    hasKey (r ++ [(k, v)]) k2 = (hasKey r k2 || (k == k2)) := by
  simp [hasKey, List.any_append]

lemma hasKey_objSet (r : Rec) (k : String) (v : Value) (k2 : String) :
    hasKey (objSet r k v) k2 = (k2 == k || hasKey r k2) := by
  unfold objSet
  by_cases h : hasKey r k = true
  · rw [if_pos h, hasKey_map_set]
    by_cases hkk : k2 = k
    · subst hkk
      simp [h]
    · rw [beq_false_of_ne hkk]
      simp
  · rw [if_neg h, hasKey_append_single]
    by_cases hkk : k2 = k
    · subst hkk
      simp
    · rw [beq_false_of_ne hkk, beq_false_of_ne (Ne.symm hkk)]
      simp

lemma objGet_objSet_self (r : Rec) (k : String) (v : Value) :
    objGet (objSet r k v) k = some v := by
  unfold objSet
  by_cases h : hasKey r k = true
  · rw [if_pos h]
    exact objGet_map_set_self r k v h
  · rw [if_neg h]
    exact objGet_append_single_self r k v (by simpa using h)

lemma objGet_objSet_ne (r : Rec) (k k2 : String) (v : Value) (h : k2 ≠ k) :
    objGet (objSet r k v) k2 = objGet r k2 := by
  unfold objSet
  by_cases hk : hasKey r k = true
  · rw [if_pos hk]
    exact objGet_map_set_ne r k k2 v h
  · rw [if_neg hk]
    exact objGet_append_single_ne r k k2 v h

lemma objGet_objSpread_of_hasKey_false (base upd : Rec) (k : String)
    (h : hasKey upd k = false) : objGet (objSpread base upd) k = objGet base k := by
  induction upd generalizing base with
  | nil => rfl
  | cons kv rest ih =>
      rw [hasKey_cons] at h
      rcases Bool.or_eq_false_iff.mp h with ⟨h1, h2⟩
      show objGet (objSpread (objSet base kv.1 kv.2) rest) k = objGet base k
      rw [ih _ h2]
      exact objGet_objSet_ne base kv.1 k kv.2 (fun hx => by simp [hx] at h1)

/-! ### Shared lemmas about payload parsing and operation plumbing -/

namespace SQLiteDriver

lemma parsePayload_eq_ok (d : JsonText) (h : payloadParses d = true) :
    parsePayload d = .ok (payloadRec d) := by
  unfold parsePayload payloadRec
  unfold payloadParses at h
  cases hd : jsonParseText d with
  | none => rw [hd] at h; cases h
  | some v => cases v <;> simp [hd]

lemma parsePayload_eq_error (d : JsonText) (h : payloadParses d = false) :
    parsePayload d = .error .parseError := by
  unfold parsePayload
  unfold payloadParses at h
  cases hd : jsonParseText d with
  | none => simp [hd]
  | some v => rw [hd] at h; cases h

lemma parseRows_ok_of_all_parse (rows : List BlobRow)
    (h : rows.all (fun r => payloadParses r.data) = true) :
    parseRows rows = .ok (rows.map (fun r => payloadRec r.data)) := by
  induction rows with
  | nil => rfl
  | cons r rest ih =>
      rw [List.all_cons, Bool.and_eq_true] at h
      unfold parseRows
      rw [parsePayload_eq_ok r.data h.1, ih h.2, List.map_cons]

lemma parseRows_error_of_corrupt (rows : List BlobRow)
    (h : rows.any (fun r => !payloadParses r.data) = true) :
    parseRows rows = .error .parseError := by
  induction rows with
  | nil => cases h
  | cons r rest ih =>
      rw [List.any_cons, Bool.or_eq_true] at h
      unfold parseRows
      cases hp : payloadParses r.data with
      | false => rw [parsePayload_eq_error r.data hp]
      | true =>
          rw [parsePayload_eq_ok r.data hp]
          have hrest : rest.any (fun r => !payloadParses r.data) = true := by
            rcases h with h | h
            · rw [hp] at h; cases h
            · exact h
          rw [ih hrest]

lemma parseRows_length (rows : List BlobRow) (l : List Rec)
    (h : parseRows rows = .ok l) : l.length = rows.length := by
  induction rows generalizing l with
  | nil =>
      unfold parseRows at h
      cases h
      rfl
  | cons r rest ih =>
      unfold parseRows at h
      cases hp : parsePayload r.data with
      | error e => rw [hp] at h; cases h
      | ok rec =>
          rw [hp] at h
          cases hr : parseRows rest with
          | error e => rw [hr] at h; cases h
          | ok l2 =>
              rw [hr] at h
              cases h
              simp [ih l2 hr]

/-- `exists(query)` is exactly `getOne(query)` tested against null, state
and error behavior included. -/
lemma existsOp_eq_getOne (s : DriverState) (query : Rec) :
    existsOp s query = (((getOne s query).1).map Option.isSome, (getOne s query).2) := by
  unfold existsOp getOne
  by_cases h : s.connected = false
  · simp [h, Except.map]
  · simp [h]

end SQLiteDriver

/-! ### Shared lemmas for the getOne / get agreement and the type mapper -/

namespace SQLiteDriver

lemma firstOf_ok (l : List Rec) : firstOf (.ok l) = .ok l.head? := by
  cases l <;> rfl

lemma truthy_of_truthyIdOf (q : Rec) (v : Value) (h : truthyIdOf q = some v) :
    truthy v = true := by
  cases hg : objGet q "_id" with
  | none =>
      rw [truthyIdOf, hg] at h
      cases h
  | some w =>
      have h' : (if truthy w = true then some w else none) = some v := by
        rw [truthyIdOf, hg] at h
        exact h
      by_cases ht : truthy w = true
      · rw [if_pos ht] at h'
        cases h'
        exact ht
      · rw [if_neg ht] at h'
        cases h'

lemma truthyIdOf_single (v : Value) (h : truthy v = true) :
    truthyIdOf [("_id", v)] = some v := by
  unfold truthyIdOf
  rw [objGet_cons]
  simp [h]

lemma value_beq_str (a b : String) : (Value.str a == Value.str b) = (a == b) := rfl

lemma find?_append_of_none {α : Type} (l1 l2 : List α) (p : α → Bool)
    (h : l1.find? p = none) : (l1 ++ l2).find? p = l2.find? p := by
  induction l1 with
  | nil => rfl
  | cons a rest ih =>
      cases hp : p a with
      | true =>
          rw [List.find?_cons_of_pos _ hp] at h
          cases h
      | false =>
          rw [List.find?_cons_of_neg _ (by simp [hp])] at h
          rw [List.cons_append, List.find?_cons_of_neg _ (by simp [hp])]
          exact ih h

lemma mergeData_id (definition : Rec) (row : SqlRow)
    (h1 : hasKey definition "_id" = false)
    (h2 : hasKey (payloadRec row.extras) "_id" = false) :
    objGet (mergeData (some definition) row) "_id" = some (Value.str row.id) := by
  have hno : objGet definition "_id" = none := objGet_eq_none_of_hasKey_false _ _ h1
  simp only [mergeData]
  rw [objGet_objSpread_of_hasKey_false _ _ _ h2]
  rw [List.cons_append, List.map_cons]
  simp only [hno]
  rw [objGet_cons]
  simp

lemma matchesQuery_single_id (rec : Rec) (idv : String) (s : String)
    (h : objGet rec "_id" = some (Value.str s)) :
    matchesQuery rec [("_id", Value.str idv)] = (s == idv) := by
  unfold matchesQuery
  rw [List.all_cons, List.all_nil]
  rw [h]
  simp [value_beq_str]

lemma pkLookupBlob_agrees (rows : List BlobRow) (idv : String)
    (hWF : blobRowsWF rows = true) :
    pkLookupBlob rows (Value.str idv) =
      .ok (((rows.map (fun r => payloadRec r.data)).filter
        (fun rec => matchesQuery rec [("_id", Value.str idv)])).head?) := by
  induction rows with
  | nil => rfl
  | cons r rest ih =>
      rw [blobRowsWF, List.all_cons, Bool.and_eq_true] at hWF
      obtain ⟨hr, hrest⟩ := hWF
      rw [Bool.and_eq_true] at hr
      obtain ⟨hp, hid⟩ := hr
      have hid' : objGet (payloadRec r.data) "_id" = some (Value.str r.id) := by
        cases hg : objGet (payloadRec r.data) "_id" with
        | none => rw [hg] at hid; cases hid
        | some w =>
            rw [hg] at hid
            cases w with
            | str s =>
                have : s = r.id := by simpa using hid
                rw [this]
            | null => cases hid
            | bool b => cases hid
            | num n => cases hid
            | obj fs => cases hid
      have hmatch : matchesQuery (payloadRec r.data) [("_id", Value.str idv)] = (r.id == idv) :=
        matchesQuery_single_id _ _ _ hid'
      by_cases hcase : r.id = idv
      · have hstep : pkLookupBlob (r :: rest) (Value.str idv) =
            (match parsePayload r.data with
             | .ok rec => Except.ok (some rec)
             | .error e => Except.error e) := by
          unfold pkLookupBlob
          rw [List.find?_cons_of_pos _ (by simp [idMatches, value_beq_str, hcase])]
        rw [hstep, parsePayload_eq_ok _ hp]
        rw [List.map_cons, List.filter_cons_of_pos (by rw [hmatch]; simp [hcase])]
        rfl
      · have hskip : idMatches (Value.str idv) r.id = false := by
          simp [idMatches, value_beq_str]
          exact fun hx => hcase hx.symm
        unfold pkLookupBlob at ih ⊢
        rw [List.find?_cons_of_neg _ (by simp [hskip])]
        rw [List.map_cons, List.filter_cons_of_neg (by rw [hmatch]; simp [hcase])]
        exact ih hrest

lemma pkLookupSql_agrees (definition : Rec) (rows : List SqlRow) (idv : String)
    (hdef : hasKey definition "_id" = false)
    (hall : rows.all (fun r => !hasKey (payloadRec r.extras) "_id") = true) :
    pkLookupSql definition rows (Value.str idv) =
      ((rows.map (mergeData (some definition))).filter
        (fun rec => matchesQuery rec [("_id", Value.str idv)])).head? := by
  induction rows with
  | nil => rfl
  | cons r rest ih =>
      rw [List.all_cons, Bool.and_eq_true] at hall
      obtain ⟨hr, hrest⟩ := hall
      have hid' : objGet (mergeData (some definition) r) "_id" = some (Value.str r.id) :=
        mergeData_id definition r hdef (by simpa using hr)
      have hmatch : matchesQuery (mergeData (some definition) r) [("_id", Value.str idv)]
          = (r.id == idv) := matchesQuery_single_id _ _ _ hid'
      by_cases hcase : r.id = idv
      · unfold pkLookupSql
        rw [List.find?_cons_of_pos _ (by simp [idMatches, value_beq_str, hcase])]
        rw [List.map_cons, List.filter_cons_of_pos (by rw [hmatch]; simp [hcase])]
        rfl
      · have hskip : idMatches (Value.str idv) r.id = false := by
          simp [idMatches, value_beq_str]
          exact fun hx => hcase hx.symm
        unfold pkLookupSql at ih ⊢
        rw [List.find?_cons_of_neg _ (by simp [hskip])]
        rw [List.map_cons, List.filter_cons_of_neg (by rw [hmatch]; simp [hcase])]
        exact ih hrest

lemma blobRowsWF_parses (rows : List BlobRow) (h : blobRowsWF rows = true) :
    rows.all (fun r => payloadParses r.data) = true := by
  rw [blobRowsWF, List.all_eq_true] at h
  rw [List.all_eq_true]
  intro r hr
  have hx := h r hr
  rw [Bool.and_eq_true] at hx
  exact hx.1

lemma specSQLTypeOfTag_mem (t : String) :
    specSQLTypeOfTag t = "TEXT" ∨ specSQLTypeOfTag t = "INTEGER" ∨
    specSQLTypeOfTag t = "REAL" ∨ specSQLTypeOfTag t = "BLOB" := by
  unfold specSQLTypeOfTag
  split_ifs <;> simp

lemma any_id_false_of_all_fresh (rows : List BlobRow) (id : String)
    (h : rows.all (fun r => !(r.id == id)) = true) :
    rows.any (fun r => r.id == id) = false := by
  cases hx : rows.any (fun r => r.id == id) with
  | false => rfl
  | true =>
      rcases List.any_eq_true.mp hx with ⟨r, hr, hp⟩
      have := List.all_eq_true.mp h r hr
      rw [hp] at this
      cases this

lemma find?_eq_none_of_fresh (rows : List BlobRow) (id : String)
    (h : rows.all (fun r => !(r.id == id)) = true) :
    rows.find? (fun r => idMatches (Value.str id) r.id) = none := by
  rw [List.find?_eq_none]
  intro r hr
  have := List.all_eq_true.mp h r hr
  intro hp
  rw [idMatches, value_beq_str] at hp
  have hid : id = r.id := by simpa using hp
  rw [← hid] at this
  simp at this

end SQLiteDriver

/-! ### splitData characterization lemmas -/

namespace SQLiteDriver

lemma splitData_fold_fst (definition : Rec) (l : List (String × Value))
    (sd ed : Rec) (k : String) :
    hasKey ((l.foldl (fun acc kv =>
        if hasKey definition kv.1 then (objSet acc.1 kv.1 kv.2, acc.2)
        else if reservedKey kv.1 then acc
        else (acc.1, objSet acc.2 kv.1 kv.2)) (sd, ed)).1) k
      = (hasKey sd k || (hasKey l k && hasKey definition k)) := by
  induction l generalizing sd ed with
  | nil => simp [hasKey]
  | cons kv rest ih =>
      simp only [List.foldl_cons]
      rw [hasKey_cons]
      by_cases hdef : hasKey definition kv.1 = true
      · rw [if_pos hdef, ih, hasKey_objSet]
        by_cases hk : k = kv.1
        · subst hk
          simp [hdef]
        · simp [beq_false_of_ne hk, beq_false_of_ne (fun hx => hk hx.symm), Bool.or_assoc]
      · have hdef' : hasKey definition kv.1 = false := by simpa using hdef
        rw [if_neg hdef]
        by_cases hres : reservedKey kv.1 = true
        · rw [if_pos hres, ih]
          by_cases hk : k = kv.1
          · subst hk
            simp [hdef']
          · simp [beq_false_of_ne (fun hx => hk hx.symm)]
        · rw [if_neg hres, ih]
          by_cases hk : k = kv.1
          · subst hk
            simp [hdef']
          · simp [beq_false_of_ne (fun hx => hk hx.symm)]

lemma splitData_fold_snd (definition : Rec) (l : List (String × Value))
    (sd ed : Rec) (k : String) :
    hasKey ((l.foldl (fun acc kv =>
        if hasKey definition kv.1 then (objSet acc.1 kv.1 kv.2, acc.2)
        else if reservedKey kv.1 then acc
        else (acc.1, objSet acc.2 kv.1 kv.2)) (sd, ed)).2) k
      = (hasKey ed k || (hasKey l k && !reservedKey k && !hasKey definition k)) := by
  induction l generalizing sd ed with
  | nil => simp [hasKey]
  | cons kv rest ih =>
      simp only [List.foldl_cons]
      rw [hasKey_cons]
      by_cases hdef : hasKey definition kv.1 = true
      · rw [if_pos hdef, ih]
        by_cases hk : k = kv.1
        · subst hk
          simp [hdef]
        · simp [beq_false_of_ne (fun hx => hk hx.symm)]
      · have hdef' : hasKey definition kv.1 = false := by simpa using hdef
        rw [if_neg hdef]
        by_cases hres : reservedKey kv.1 = true
        · rw [if_pos hres, ih]
          by_cases hk : k = kv.1
          · subst hk
            simp [hres]
          · simp [beq_false_of_ne (fun hx => hk hx.symm)]
        · have hres' : reservedKey kv.1 = false := by simpa using hres
          rw [if_neg hres, ih, hasKey_objSet]
          by_cases hk : k = kv.1
          · subst hk
            simp [hres', hdef']
          · simp [beq_false_of_ne hk, beq_false_of_ne (fun hx => hk hx.symm), Bool.or_assoc]

end SQLiteDriver

/-! ### Claim theorems -/

/-- C1 (code bug): with the spec's hybrid schema `a: NUMBER, b: BOOLEAN`
attached and connected, inserting `a: 1, b: true, c: "x"` and reading the
record back by its assigned `_id` yields `a = 1` and `c = "x"` untouched,
but `b` comes back as the number `1`, not the boolean `true`: `mergeData`'s
cast condition compares the declared tag against the exact lowercase string
`'boolean'`, so the repository's canonical upper-case `BOOLEAN` tag never
triggers the cast, contradicting `mergeData`'s own documentation and the
spec's round-trip property. The read-back is therefore not equal to the
claimed record. -/
theorem hawiah_c1_boolean_roundtrip_bug :
    (SQLiteDriver.set c1connected "id1" "T0" c1input).1 =
      .ok (objSpread c1input
        [("_id", Value.str "id1"), ("_createdAt", Value.str "T0"),
         ("_updatedAt", Value.str "T0")]) ∧
    firstField (SQLiteDriver.getOne c1afterInsert [("_id", Value.str "id1")]).1 "a"
      = some (Value.num 1) ∧
    firstField (SQLiteDriver.getOne c1afterInsert [("_id", Value.str "id1")]).1 "c"
      = some (Value.str "x") ∧
    firstField (SQLiteDriver.getOne c1afterInsert [("_id", Value.str "id1")]).1 "b"
      = some (Value.num 1) ∧
    resultEquiv (SQLiteDriver.getOne c1afterInsert [("_id", Value.str "id1")]).1
      c1claimedRecord = some false :=
  ⟨rfl, rfl, rfl, rfl, rfl⟩

/-- C2 (code bug): in the current hybrid-variant driver, the schema-less
`update` builds `{...record, ...patch, _updatedAt: now}` and persists it
WITHOUT restoring `record._id` / `record._createdAt` (the lines the legacy
variant has). A patch containing `_createdAt` or `_id` therefore overwrites
those fields in the stored `_data` blob: after updating with such a patch,
the read-back record carries the patched `_createdAt` (`2099-…`) and `_id`
(`other`) instead of the pre-update values `T0` / `id1`, while `name` and
the fresh `_updatedAt` behave as specified. -/
theorem hawiah_c2_update_preserved_fields_bug :
    firstField (SQLiteDriver.getOne c2afterInsert [("_id", Value.str "id1")]).1 "_createdAt"
      = some (Value.str "T0") ∧
    (SQLiteDriver.update c2afterInsert "T1" [] c2patch).1 = .ok 1 ∧
    firstField (SQLiteDriver.getOne c2afterUpdate [("_id", Value.str "id1")]).1 "_createdAt"
      = some (Value.str "2099-01-01T00:00:00.000Z") ∧
    firstField (SQLiteDriver.getOne c2afterUpdate [("_id", Value.str "id1")]).1 "_id"
      = some (Value.str "other") ∧
    firstField (SQLiteDriver.getOne c2afterUpdate [("_id", Value.str "id1")]).1 "name"
      = some (Value.str "a") ∧
    firstField (SQLiteDriver.getOne c2afterUpdate [("_id", Value.str "id1")]).1 "_updatedAt"
      = some (Value.str "T1") :=
  ⟨rfl, rfl, rfl, rfl, rfl, rfl⟩

/-- C5 (confirmed): the type mapper is a pure total function equal, on
every descriptor, to the spec's ordered substring rules applied to the
normalized (unwrapped, upper-cased) tag; its result is always one of TEXT,
INTEGER, REAL, BLOB; and the five scenario mappings hold, with unknown tags
falling back to TEXT. -/
theorem hawiah_c5_type_mapper :
    (∀ type, SQLiteDriver.mapHawiahTypeToSQL type =
       specSQLTypeOfTag (jsUpper (jsStringOf (SQLiteDriver.unwrapTypeTag type)))) ∧
    (∀ type, SQLiteDriver.mapHawiahTypeToSQL type = "TEXT" ∨
       SQLiteDriver.mapHawiahTypeToSQL type = "INTEGER" ∨
       SQLiteDriver.mapHawiahTypeToSQL type = "REAL" ∨
       SQLiteDriver.mapHawiahTypeToSQL type = "BLOB") ∧
    SQLiteDriver.mapHawiahTypeToSQL (Value.str "STRING") = "TEXT" ∧
    SQLiteDriver.mapHawiahTypeToSQL (Value.str "NUMBER") = "REAL" ∧
    SQLiteDriver.mapHawiahTypeToSQL (Value.obj [("type", Value.str "NUMBER_INT")])
      = "INTEGER" ∧
    SQLiteDriver.mapHawiahTypeToSQL (Value.str "BOOLEAN") = "INTEGER" ∧
    SQLiteDriver.mapHawiahTypeToSQL (Value.str "UNKNOWN_TAG") = "TEXT" := by
  refine ⟨fun type => rfl, fun type => ?_, rfl, rfl, rfl, rfl, rfl⟩
  have h : SQLiteDriver.mapHawiahTypeToSQL type =
      specSQLTypeOfTag (jsUpper (jsStringOf (SQLiteDriver.unwrapTypeTag type))) := rfl
  rw [h]
  exact SQLiteDriver.specSQLTypeOfTag_mem _

/-- C6 (counterexample): the claim as stated fails at the schema-less state
on a record containing the reserved `_id` field: with no schema,
`splitData` returns the whole record as extras, so `_id` DOES appear in the
extras output, contradicting the clauses that extras contain only
non-reserved fields and that reserved fields appear in neither output. -/
theorem hawiah_c6_counterexample : ¬ claimC6Partition none c6data := by
  intro h
  have h3 := (h.2.2.1 "_id" (by decide)).2
  exact absurd h3 (by decide)

/-- C6 (amended): with a schema attached, `splitData` partitions exactly as
claimed — a field reaches the schema part iff it is a field of the record
declared in the schema, it reaches the extras part iff it is a field of the
record that is neither reserved nor declared, and the extras part never
contains a reserved field. With no schema set, the schema part is empty and
the extras output is the record itself verbatim — every field, the reserved
fields included. -/
theorem hawiah_c6_amended (definition data : Rec) (k : String) :
    hasKey (SQLiteDriver.splitData (some definition) data).1 k
      = (hasKey data k && hasKey definition k) ∧
    hasKey (SQLiteDriver.splitData (some definition) data).2 k
      = (hasKey data k && !reservedKey k && !hasKey definition k) ∧
    (hasKey (SQLiteDriver.splitData (some definition) data).2 k && reservedKey k) = false ∧
    SQLiteDriver.splitData none data = ([], data) := by
  have h1 : hasKey (SQLiteDriver.splitData (some definition) data).1 k
      = (hasKey data k && hasKey definition k) := by
    unfold SQLiteDriver.splitData
    rw [SQLiteDriver.splitData_fold_fst]
    simp [hasKey]
  have h2 : hasKey (SQLiteDriver.splitData (some definition) data).2 k
      = (hasKey data k && !reservedKey k && !hasKey definition k) := by
    unfold SQLiteDriver.splitData
    rw [SQLiteDriver.splitData_fold_snd]
    simp [hasKey]
  refine ⟨h1, h2, ?_, rfl⟩
  rw [h2]
  cases hasKey data k <;> cases reservedKey k <;> cases hasKey definition k <;> simp

/-- C9 (confirmed): every public operation invoked while the store is
disconnected — `set`, `get`, `getOne`, `update`, `delete`, `exists`,
`count`, `clear`, `drop`, `vacuum`, `analyze`, the transaction calls and
the raw escape hatches — fails with the `NotConnected` error and returns
the state unchanged. -/
theorem hawiah_c9_guard (s : DriverState) (id now rsql : String) (q d : Rec)
    (h : s.connected = false) :
    SQLiteDriver.set s id now d = (.error .notConnected, s) ∧
    SQLiteDriver.get s q = (.error .notConnected, s) ∧
    SQLiteDriver.getOne s q = (.error .notConnected, s) ∧
    SQLiteDriver.update s now q d = (.error .notConnected, s) ∧
    SQLiteDriver.delete s q = (.error .notConnected, s) ∧
    SQLiteDriver.existsOp s q = (.error .notConnected, s) ∧
    SQLiteDriver.count s q = (.error .notConnected, s) ∧
    SQLiteDriver.clear s = (.error .notConnected, s) ∧
    SQLiteDriver.drop s = (.error .notConnected, s) ∧
    SQLiteDriver.vacuum s = (.error .notConnected, s) ∧
    SQLiteDriver.analyze s = (.error .notConnected, s) ∧
    SQLiteDriver.beginTransaction s = (.error .notConnected, s) ∧
    SQLiteDriver.commit s = (.error .notConnected, s) ∧
    SQLiteDriver.rollback s = (.error .notConnected, s) ∧
    SQLiteDriver.executeRaw s rsql = (.error .notConnected, s) ∧
    SQLiteDriver.prepareRaw s rsql = (.error .notConnected, s) := by
  refine ⟨?_, ?_, ?_, ?_, ?_, ?_, ?_, ?_, ?_, ?_, ?_, ?_, ?_, ?_, ?_, ?_⟩ <;>
    simp [SQLiteDriver.set, SQLiteDriver.get, SQLiteDriver.getOne, SQLiteDriver.update,
          SQLiteDriver.delete, SQLiteDriver.existsOp, SQLiteDriver.count,
          SQLiteDriver.clear, SQLiteDriver.drop, SQLiteDriver.vacuum,
          SQLiteDriver.analyze, SQLiteDriver.beginTransaction, SQLiteDriver.commit,
          SQLiteDriver.rollback, SQLiteDriver.executeRaw, SQLiteDriver.prepareRaw, h]

/-- C9 witness: the guard theorem applied to a concrete disconnected store. -/
theorem hawiah_c9_guard_witness :
    SQLiteDriver.set discStore "x" "T0" [] = (.error .notConnected, discStore) ∧
    SQLiteDriver.count discStore [] = (.error .notConnected, discStore) := by
  have h := hawiah_c9_guard discStore "x" "T0" "VACUUM" [] [] rfl
  exact ⟨h.1, h.2.2.2.2.2.2.1⟩

/-- C7 (confirmed): on a connected store, whenever `get(filter)` succeeds
with a result list, `count(filter)` succeeds with exactly its length (the
empty filter included, where `count` uses the direct COUNT(*) aggregate
over the stored rows); and `exists(filter)` is literally `getOne(filter)`
tested against null, errors and state included. -/
theorem hawiah_c7_count_exists (s : DriverState) (q : Rec) (l : List Rec)
    (hconn : s.connected = true) :
    ((SQLiteDriver.get s q).1 = .ok l → (SQLiteDriver.count s q).1 = .ok l.length) ∧
    SQLiteDriver.existsOp s q =
      (((SQLiteDriver.getOne s q).1).map Option.isSome, (SQLiteDriver.getOne s q).2) ∧
    (SQLiteDriver.count s []).1 = .ok (rowCount s.table) := by
  refine ⟨?_, SQLiteDriver.existsOp_eq_getOne s q, ?_⟩
  · intro hget
    by_cases hq : q.length = 0
    · have hlen : l.length = rowCount s.table := by
        unfold SQLiteDriver.get at hget
        cases hs : s.schema with
        | some definition =>
            cases ht : s.table with
            | sqlRows rows =>
                simp [hconn, hs, ht, hq] at hget
                rw [← hget]
                simp [rowCount]
            | blobRows rows =>
                simp [hconn, hs, ht] at hget
        | none =>
            cases ht : s.table with
            | sqlRows rows =>
                simp [hconn, hs, ht] at hget
            | blobRows rows =>
                simp only [hconn, hs, ht] at hget
                cases hp : SQLiteDriver.parseRows rows with
                | error e =>
                    simp [hp] at hget
                | ok recs =>
                    simp [hp, hq] at hget
                    rw [← hget]
                    simp [rowCount, SQLiteDriver.parseRows_length rows recs hp]
      unfold SQLiteDriver.count
      simp [hconn, hq, hlen]
    · unfold SQLiteDriver.count
      simp only [hconn, Bool.true_eq_false, if_false, if_neg hq]
      rw [hget]
      rfl
  · unfold SQLiteDriver.count
    simp [hconn]

/-- C7 witness: on a one-record store, `get` on a matching filter returns
one record, so `count` returns 1; and `count` of the empty filter is the
row count. -/
theorem hawiah_c7_count_exists_witness :
    (SQLiteDriver.count demoStore [("role", Value.str "user")]).1 = .ok 1 ∧
    (SQLiteDriver.count demoStore []).1 = .ok (rowCount demoStore.table) := by
  have h := hawiah_c7_count_exists demoStore [("role", Value.str "user")]
    [[("role", Value.str "user"), ("_id", Value.str "w1"),
      ("_createdAt", Value.str "T0"), ("_updatedAt", Value.str "T0")]] rfl
  exact ⟨h.1 rfl, h.2.2⟩

/-- C8 (confirmed): schema-less round-trip — inserting any record R into a
connected schema-less store under a fresh non-empty id returns R plus the
reserved fields stamped by insert, and `getOne` on exactly that `_id`
reads back the very same record. -/
theorem hawiah_c8_roundtrip (s : DriverState) (R : Rec) (id now : String)
    (rows : List BlobRow) (hconn : s.connected = true) (hschema : s.schema = none)
    (htable : s.table = .blobRows rows)
    (hfresh : rows.all (fun r => !(r.id == id)) = true)
    (hid : id ≠ "") :
    (SQLiteDriver.set s id now R).1 = .ok (objSpread R
       [("_id", Value.str id), ("_createdAt", Value.str now),
        ("_updatedAt", Value.str now)]) ∧
    (SQLiteDriver.getOne (SQLiteDriver.set s id now R).2 [("_id", Value.str id)]).1 =
      .ok (some (objSpread R
       [("_id", Value.str id), ("_createdAt", Value.str now),
        ("_updatedAt", Value.str now)])) := by
  have hany := SQLiteDriver.any_id_false_of_all_fresh rows id hfresh
  have hset : SQLiteDriver.set s id now R =
      (.ok (objSpread R
         [("_id", Value.str id), ("_createdAt", Value.str now),
          ("_updatedAt", Value.str now)]),
       { s with table := .blobRows (rows ++
          [{ id := id,
             data := jsonStringifyText (.obj (objSpread R
               [("_id", Value.str id), ("_createdAt", Value.str now),
                ("_updatedAt", Value.str now)])),
             createdAt := now, updatedAt := now }]) }) := by
    unfold SQLiteDriver.set
    simp [hconn, hschema, htable, hany]
  refine ⟨by rw [hset], ?_⟩
  rw [hset]
  unfold SQLiteDriver.getOne
  have htr : truthy (Value.str id) = true := by
    simp [truthy, hid]
  rw [SQLiteDriver.truthyIdOf_single _ htr]
  simp only [hconn, Bool.true_eq_false, if_false]
  unfold SQLiteDriver.pkBranch
  simp only [hschema]
  unfold SQLiteDriver.pkLookupBlob
  rw [SQLiteDriver.find?_append_of_none _ _ _
    (SQLiteDriver.find?_eq_none_of_fresh rows id hfresh)]
  rw [List.find?_cons_of_pos _ (by simp [SQLiteDriver.idMatches, SQLiteDriver.value_beq_str])]
  rfl

/-- C8 witness: the round-trip at a concrete record and fresh id. -/
theorem hawiah_c8_roundtrip_witness :
    (SQLiteDriver.set
       { connected := true, schema := none, table := .blobRows [] }
       "fresh1" "T0" [("k", Value.num 7)]).1 =
      .ok (objSpread [("k", Value.num 7)]
       [("_id", Value.str "fresh1"), ("_createdAt", Value.str "T0"),
        ("_updatedAt", Value.str "T0")]) ∧
    (SQLiteDriver.getOne
       (SQLiteDriver.set
         { connected := true, schema := none, table := .blobRows [] }
         "fresh1" "T0" [("k", Value.num 7)]).2
       [("_id", Value.str "fresh1")]).1 =
      .ok (some (objSpread [("k", Value.num 7)]
       [("_id", Value.str "fresh1"), ("_createdAt", Value.str "T0"),
        ("_updatedAt", Value.str "T0")])) :=
  hawiah_c8_roundtrip _ [("k", Value.num 7)] "fresh1" "T0" [] rfl rfl rfl rfl
    (by decide)

/-- C10 (confirmed): whenever the filter's `_id` entry is truthy, `getOne`
takes the primary-key code path: its result is identical to `getOne` on
the singleton filter keeping only that `_id` — every other filter entry is
ignored — and so is `exists`; moreover `exists` reports true as soon as a
row with that primary key is stored (in hybrid mode unconditionally, in
schema-less mode provided the stored payloads parse). -/
theorem hawiah_c10_truthy_id (s : DriverState) (q : Rec) (v : Value)
    (hconn : s.connected = true) (hid : SQLiteDriver.truthyIdOf q = some v) :
    SQLiteDriver.getOne s q = SQLiteDriver.pkBranch s v ∧
    SQLiteDriver.getOne s q = SQLiteDriver.getOne s [("_id", v)] ∧
    SQLiteDriver.existsOp s q = SQLiteDriver.existsOp s [("_id", v)] ∧
    (∀ definition rows, s.schema = some definition → s.table = .sqlRows rows →
       rows.any (fun r => SQLiteDriver.idMatches v r.id) = true →
       (SQLiteDriver.existsOp s q).1 = .ok true) ∧
    (∀ rows, s.schema = none → s.table = .blobRows rows →
       rows.all (fun r => SQLiteDriver.payloadParses r.data) = true →
       rows.any (fun r => SQLiteDriver.idMatches v r.id) = true →
       (SQLiteDriver.existsOp s q).1 = .ok true) := by
  have htr : truthy v = true := SQLiteDriver.truthy_of_truthyIdOf q v hid
  have h1 : SQLiteDriver.getOne s q = SQLiteDriver.pkBranch s v := by
    unfold SQLiteDriver.getOne
    simp [hconn, hid]
  have h1b : SQLiteDriver.getOne s [("_id", v)] = SQLiteDriver.pkBranch s v := by
    unfold SQLiteDriver.getOne
    simp [hconn, SQLiteDriver.truthyIdOf_single v htr]
  refine ⟨h1, by rw [h1, h1b], ?_, ?_, ?_⟩
  · rw [SQLiteDriver.existsOp_eq_getOne, SQLiteDriver.existsOp_eq_getOne, h1, h1b]
  · intro definition rows hs ht hany
    rw [SQLiteDriver.existsOp_eq_getOne]
    rw [h1]
    unfold SQLiteDriver.pkBranch
    simp only [hs, ht]
    rcases List.any_eq_true.mp hany with ⟨r, hr, hp⟩
    have hfind : (rows.find? (fun r => SQLiteDriver.idMatches v r.id)).isSome = true := by
      rw [List.find?_isSome]
      exact ⟨r, hr, hp⟩
    cases hf : rows.find? (fun r => SQLiteDriver.idMatches v r.id) with
    | none => rw [hf] at hfind; cases hfind
    | some r2 =>
        unfold SQLiteDriver.pkLookupSql
        rw [hf]
        rfl
  · intro rows hs ht hall hany
    rw [SQLiteDriver.existsOp_eq_getOne]
    rw [h1]
    unfold SQLiteDriver.pkBranch
    simp only [hs, ht]
    rcases List.any_eq_true.mp hany with ⟨r, hr, hp⟩
    have hfind : (rows.find? (fun r => SQLiteDriver.idMatches v r.id)).isSome = true := by
      rw [List.find?_isSome]
      exact ⟨r, hr, hp⟩
    cases hf : rows.find? (fun r => SQLiteDriver.idMatches v r.id) with
    | none => rw [hf] at hfind; cases hfind
    | some r2 =>
        have hr2 : r2 ∈ rows := List.mem_of_find?_eq_some hf
        have hparse : SQLiteDriver.payloadParses r2.data = true :=
          List.all_eq_true.mp hall r2 hr2
        unfold SQLiteDriver.pkLookupBlob
        rw [hf]
        show Except.map Option.isSome
          (match SQLiteDriver.parsePayload r2.data with
           | .ok rec => Except.ok (some rec)
           | .error e => Except.error e) = Except.ok true
        rw [SQLiteDriver.parsePayload_eq_ok _ hparse]
        rfl

/-- C10 witness: on a one-record store (`_id: w1, role: user`), `getOne`
with the filter `_id: w1, role: admin` ignores the role entry: it equals
the pure `_id` lookup and returns the stored record even though its role is
not `admin`; `exists` on that filter is true. -/
theorem hawiah_c10_truthy_id_witness :
    SQLiteDriver.getOne demoStore [("_id", Value.str "w1"), ("role", Value.str "admin")] =
      SQLiteDriver.getOne demoStore [("_id", Value.str "w1")] ∧
    (SQLiteDriver.getOne demoStore
       [("_id", Value.str "w1"), ("role", Value.str "admin")]).1 =
      .ok (some [("role", Value.str "user"), ("_id", Value.str "w1"),
        ("_createdAt", Value.str "T0"), ("_updatedAt", Value.str "T0")]) ∧
    (SQLiteDriver.existsOp demoStore
       [("_id", Value.str "w1"), ("role", Value.str "admin")]).1 = .ok true :=
  ⟨(hawiah_c10_truthy_id demoStore
      [("_id", Value.str "w1"), ("role", Value.str "admin")]
      (Value.str "w1") rfl rfl).2.1, rfl, rfl⟩

/-- C3 (counterexample): `getOne` does NOT have the same semantics as `get`
on every filter. On a store holding the single record
`_id: X, role: user`, the filter `_id: X, role: admin` matches nothing
under `get`, yet `getOne` — whose guard is the truthiness of `filter._id`,
not the filter being exactly the singleton `_id: v` — serves the primary-key lookup and
returns the stored record rather than null. -/
theorem hawiah_c3_counterexample : ¬ claimC3FirstMatch c3store c3query := by
  intro h
  unfold claimC3FirstMatch at h
  have h1 : (SQLiteDriver.getOne c3store c3query).1 =
      .ok (some [("role", Value.str "user"), ("_id", Value.str "X"),
        ("_createdAt", Value.str "T0"), ("_updatedAt", Value.str "T0")]) := rfl
  have h2 : SQLiteDriver.firstOf (SQLiteDriver.get c3store c3query).1 = .ok none := rfl
  rw [h1, h2] at h
  simp at h

/-- C3 (amended): `getOne` agrees with "first result of `get`, or null"
exactly when the filter's `_id` entry is absent or falsy; a truthy `_id`
entry routes the call to the primary-key code path, which ignores all
other filter entries. When the filter is exactly the singleton
`_id: <non-empty id string>`, on a table the driver itself wrote
(payloads parse and carry the row's own `_id`; the schema does not declare
`_id` and no extras payload smuggles one), the primary-key lookup still
agrees with the first `get` match — in both storage modes. -/
theorem hawiah_c3_amended (s : DriverState) (q : Rec)
    (hconn : s.connected = true) :
    (SQLiteDriver.truthyIdOf q = none →
       SQLiteDriver.getOne s q =
         (SQLiteDriver.firstOf (SQLiteDriver.get s q).1, (SQLiteDriver.get s q).2)) ∧
    (∀ v, SQLiteDriver.truthyIdOf q = some v →
       SQLiteDriver.getOne s q = SQLiteDriver.pkBranch s v) ∧
    (∀ idv rows, s.schema = none → s.table = .blobRows rows →
       SQLiteDriver.blobRowsWF rows = true → idv ≠ "" →
       (SQLiteDriver.getOne s [("_id", Value.str idv)]).1 =
         SQLiteDriver.firstOf (SQLiteDriver.get s [("_id", Value.str idv)]).1) ∧
    (∀ idv definition rows, s.schema = some definition → s.table = .sqlRows rows →
       SQLiteDriver.sqlRowsWF definition rows = true → idv ≠ "" →
       (SQLiteDriver.getOne s [("_id", Value.str idv)]).1 =
         SQLiteDriver.firstOf (SQLiteDriver.get s [("_id", Value.str idv)]).1) := by
  refine ⟨?_, ?_, ?_, ?_⟩
  · intro h
    unfold SQLiteDriver.getOne
    simp [hconn, h]
  · intro v h
    unfold SQLiteDriver.getOne
    simp [hconn, h]
  · intro idv rows hs ht hWF hidv
    have htr : truthy (Value.str idv) = true := by simp [truthy, hidv]
    have hgetOne : (SQLiteDriver.getOne s [("_id", Value.str idv)]).1 =
        SQLiteDriver.pkLookupBlob rows (Value.str idv) := by
      unfold SQLiteDriver.getOne
      rw [SQLiteDriver.truthyIdOf_single _ htr]
      simp [hconn, SQLiteDriver.pkBranch, hs, ht]
    have hget : (SQLiteDriver.get s [("_id", Value.str idv)]).1 =
        .ok ((rows.map (fun r => SQLiteDriver.payloadRec r.data)).filter
          (fun r => SQLiteDriver.matchesQuery r [("_id", Value.str idv)])) := by
      unfold SQLiteDriver.get
      simp only [hconn, hs, ht]
      rw [SQLiteDriver.parseRows_ok_of_all_parse rows
        (SQLiteDriver.blobRowsWF_parses rows hWF)]
      simp
    rw [hgetOne, hget, SQLiteDriver.firstOf_ok,
      SQLiteDriver.pkLookupBlob_agrees rows idv hWF]
  · intro idv definition rows hs ht hWF hidv
    rw [SQLiteDriver.sqlRowsWF, Bool.and_eq_true] at hWF
    obtain ⟨hdef, hall⟩ := hWF
    have hdef' : hasKey definition "_id" = false := by
      cases hx : hasKey definition "_id"
      · rfl
      · rw [hx] at hdef; cases hdef
    have htr : truthy (Value.str idv) = true := by simp [truthy, hidv]
    have hgetOne : (SQLiteDriver.getOne s [("_id", Value.str idv)]).1 =
        .ok (SQLiteDriver.pkLookupSql definition rows (Value.str idv)) := by
      unfold SQLiteDriver.getOne
      rw [SQLiteDriver.truthyIdOf_single _ htr]
      simp [hconn, SQLiteDriver.pkBranch, hs, ht]
    have hget : (SQLiteDriver.get s [("_id", Value.str idv)]).1 =
        .ok ((rows.map (SQLiteDriver.mergeData (some definition))).filter
          (fun r => SQLiteDriver.matchesQuery r [("_id", Value.str idv)])) := by
      unfold SQLiteDriver.get
      simp [hconn, hs, ht]
    rw [hgetOne, hget, SQLiteDriver.firstOf_ok,
      SQLiteDriver.pkLookupSql_agrees definition rows idv hdef' hall]

/-- C3 amended witness: on a one-record store, a filter without `_id`
follows the `get`-first-match path, and the exact `_id: w1` filter agrees
with `get`'s first match. -/
theorem hawiah_c3_amended_witness :
    SQLiteDriver.getOne demoStore [("role", Value.str "user")] =
      (SQLiteDriver.firstOf (SQLiteDriver.get demoStore [("role", Value.str "user")]).1,
       (SQLiteDriver.get demoStore [("role", Value.str "user")]).2) ∧
    (SQLiteDriver.getOne demoStore [("_id", Value.str "w1")]).1 =
      SQLiteDriver.firstOf (SQLiteDriver.get demoStore [("_id", Value.str "w1")]).1 := by
  have h := hawiah_c3_amended demoStore [("role", Value.str "user")] rfl
  refine ⟨h.1 rfl, ?_⟩
  exact h.2.2.1 "w1"
    [{ id := "w1",
       data := jsonStringifyText (.obj [("role", Value.str "user"),
         ("_id", Value.str "w1"), ("_createdAt", Value.str "T0"),
         ("_updatedAt", Value.str "T0")]),
       createdAt := "T0", updatedAt := "T0" }]
    rfl rfl rfl (by decide)

/-- C4 (counterexample): a corrupt `_data` payload in schema-less mode is
NOT recovered: `get` over a table holding one unparsable `_data` row
propagates the decode error and the whole read fails, rather than
substituting an empty record. -/
theorem hawiah_c4_counterexample : ¬ claimC4FailSoft c4store := by
  intro h
  obtain ⟨l, hl⟩ := h
  have hx : (SQLiteDriver.get c4store []).1 = Except.error DBError.parseError := rfl
  rw [hx] at hl
  exact Except.noConfusion hl

/-- C4 (amended): the fail-soft recovery exists only on the hybrid path: a
corrupt `_extras` payload merges exactly like an empty extras object, and
hybrid-mode reads never fail; but in schema-less mode a corrupt `_data`
payload makes the whole `get` fail with the decode error. -/
theorem hawiah_c4_amended :
    (∀ (definition : Rec) (rid : String) (cols : Rec) (badtext : String)
       (c u : String),
       SQLiteDriver.mergeData (some definition)
         { id := rid, cols := cols, extras := .bad badtext,
           createdAt := c, updatedAt := u } =
       SQLiteDriver.mergeData (some definition)
         { id := rid, cols := cols, extras := jsonStringifyText (.obj []),
           createdAt := c, updatedAt := u }) ∧
    (∀ (s : DriverState) (definition : Rec) (rows : List SqlRow) (q : Rec),
       s.connected = true → s.schema = some definition → s.table = .sqlRows rows →
       ∃ l, (SQLiteDriver.get s q).1 = .ok l) ∧
    (∀ (s : DriverState) (rows : List BlobRow) (q : Rec),
       s.connected = true → s.schema = none → s.table = .blobRows rows →
       rows.any (fun r => !SQLiteDriver.payloadParses r.data) = true →
       (SQLiteDriver.get s q).1 = .error .parseError) := by
  refine ⟨fun definition rid cols badtext c u => rfl, ?_, ?_⟩
  · intro s definition rows q hconn hs ht
    by_cases hq : q.length > 0
    · refine ⟨(rows.map (SQLiteDriver.mergeData (some definition))).filter
        (fun r => SQLiteDriver.matchesQuery r q), ?_⟩
      unfold SQLiteDriver.get
      simp [hconn, hs, ht, hq]
    · refine ⟨rows.map (SQLiteDriver.mergeData (some definition)), ?_⟩
      unfold SQLiteDriver.get
      simp [hconn, hs, ht, hq]
  · intro s rows q hconn hs ht hcorrupt
    unfold SQLiteDriver.get
    simp only [hconn, hs, ht]
    rw [SQLiteDriver.parseRows_error_of_corrupt rows hcorrupt]
    simp

/-- C4 amended witness: a concrete corrupt `_extras` cell merges like an
empty extras object, and the concrete corrupt schema-less store fails its
read with the decode error. -/
theorem hawiah_c4_amended_witness :
    SQLiteDriver.mergeData (some [("a", Value.str "NUMBER")])
      { id := "r1", cols := [("a", Value.num 1)], extras := .bad "oops",
        createdAt := "T0", updatedAt := "T0" } =
    SQLiteDriver.mergeData (some [("a", Value.str "NUMBER")])
      { id := "r1", cols := [("a", Value.num 1)],
        extras := jsonStringifyText (.obj []),
        createdAt := "T0", updatedAt := "T0" } ∧
    (SQLiteDriver.get c4store []).1 = .error .parseError :=
  ⟨hawiah_c4_amended.1 [("a", Value.str "NUMBER")] "r1" [("a", Value.num 1)]
      "oops" "T0" "T0",
   hawiah_c4_amended.2.2 c4store [c4corruptRow] [] rfl rfl rfl rfl⟩
